import Mathlib

/-!
Verification of the JZ4740 PWM driver (drivers/pwm/pwm-jz4740.c).

The driver is embedded shallowly:
* Hardware registers of the timer/counter unit (TCU) are named by the
  inductive type `Reg`, mirroring the TCU_REG_* macros used by the driver.
* Register accesses performed through the regmap API are recorded as a
  trace of `RegOp` values; their effect on the register file is given by
  `applyOp`/`applyOps`.
* Machine integers are modelled as `Nat` with explicit reduction modulo
  `ULONG_MOD` (the 32-bit `unsigned long` of the driver's MIPS32 target)
  and `ULLONG_MOD` (the 64-bit `unsigned long long`) exactly where the C
  arithmetic can wrap.
* The clock framework (`clk_get_rate`, `clk_round_rate`, `clk_set_rate`)
  is a collaborator: the current rate is an input, `clk_round_rate` is an
  arbitrary function parameter, and the argument the driver passes to
  `clk_set_rate` is recorded in the result.
-/

/-- Modulus of the 32-bit C type `unsigned long` on the driver's MIPS32
target (also `unsigned int`, the regmap value type). -/
def ULONG_MOD : Nat := 2 ^ 32

/-- Modulus of the 64-bit C type `unsigned long long`. -/
def ULLONG_MOD : Nat := 2 ^ 64

/-- The kernel macro BIT(n) = 1UL << n. -/
def BIT (n : Nat) : Nat := 2 ^ n

/-- Modelled from the spec: the per-channel control/status register's
PWM output-enable bit (macro TCU_TCSR_PWM_EN of linux/mfd/ingenic-tcu.h,
which is not part of the sources under verification; the spec only
requires the three control bits to be distinct single bits). -/
def TCU_TCSR_PWM_EN : Nat := BIT 7

/-- Modelled from the spec: the initial-level-high bit of the per-channel
control/status register (macro TCU_TCSR_PWM_INITL_HIGH). -/
def TCU_TCSR_PWM_INITL_HIGH : Nat := BIT 8

/-- Modelled from the spec: the abrupt-shutdown bit of the per-channel
control/status register (macro TCU_TCSR_PWM_SD). -/
def TCU_TCSR_PWM_SD : Nat := BIT 9

/-- The TCU registers the driver touches, mirroring the TCU_REG_* macros:
`TER` is the global running-status register, `TESR`/`TECR` the global
counter-start/counter-stop trigger registers, and `TCSR c`, `TCNT c`,
`TDHR c`, `TDFR c` the per-channel control, live-counter, duty and period
registers of channel `c` (TCU_REG_TCSRc(c) etc.). -/
inductive Reg where
  | TER
  | TESR
  | TECR
  | TCSR (c : Nat)
  | TCNT (c : Nat)
  | TDHR (c : Nat)
  | TDFR (c : Nat)
deriving DecidableEq

/-- One register access through the regmap API. -/
inductive RegOp where
  | read (r : Reg)
  | write (r : Reg) (v : Nat)
  | updateBits (r : Reg) (mask v : Nat)
deriving DecidableEq

/-- The register file: the value held by each register. -/
def RegState : Type := Reg → Nat

/-- regmap_read: returns the current value of a register. -/
def regmap_read (s : RegState) (r : Reg) : Nat := s r

/-- Modelled from the spec: a regmap_write and its hardware effect. The
spec describes TESR and TECR as write-only trigger registers whose bits
set respectively clear the corresponding bits of the running-status
register TER (this hardware behaviour lives outside the driver source);
a write to any other register stores the value. -/
def regmap_write (s : RegState) (r : Reg) (v : Nat) : RegState :=
  match r with
  | .TESR => Function.update s .TER (s .TER ||| v)
  | .TECR => Function.update s .TER (Nat.ldiff (s .TER) v)
  | _ => Function.update s r v

/-- regmap_update_bits: read-modify-write, new = (old & ~mask) | (v & mask). -/
def regmap_update_bits (s : RegState) (r : Reg) (mask v : Nat) : RegState :=
  Function.update s r (Nat.ldiff (s r) mask ||| (v &&& mask))

/-- Effect of one recorded register access on the register file. -/
def applyOp (s : RegState) : RegOp → RegState
  | .read _ => s
  | .write r v => regmap_write s r v
  | .updateBits r mask v => regmap_update_bits s r mask v

/-- Effect of a trace of register accesses, first to last. -/
def applyOps (s : RegState) (ops : List RegOp) : RegState :=
  ops.foldl applyOp s

/-- jz4740_pwm_enable: set the channel's PWM output-enable bit in its
control register, then start its counter by writing the channel's bit to
the global counter-start trigger register TESR. -/
def jz4740_pwm_enable (hwpwm : Nat) : List RegOp :=
  [.updateBits (.TCSR hwpwm) TCU_TCSR_PWM_EN TCU_TCSR_PWM_EN,
   .write .TESR (BIT hwpwm)]

/-- jz4740_pwm_disable: clear the channel's PWM output-enable bit in its
control register, then stop its counter by writing the channel's bit to
the global counter-stop trigger register TECR. -/
def jz4740_pwm_disable (hwpwm : Nat) : List RegOp :=
  [.updateBits (.TCSR hwpwm) TCU_TCSR_PWM_EN 0,
   .write .TECR (BIT hwpwm)]

/-- The two polarities of enum pwm_polarity. -/
inductive PwmPolarity where
  | normal
  | inversed
deriving DecidableEq

/-- jz4740_pwm_set_polarity: clear the initial-level-high bit for normal
polarity, set it for inversed polarity. -/
def jz4740_pwm_set_polarity (hwpwm : Nat) (polarity : PwmPolarity) : List RegOp :=
  match polarity with
  | .normal => [.updateBits (.TCSR hwpwm) TCU_TCSR_PWM_INITL_HIGH 0]
  | .inversed =>
      [.updateBits (.TCSR hwpwm) TCU_TCSR_PWM_INITL_HIGH TCU_TCSR_PWM_INITL_HIGH]

/-- The rate-search loop of jz4740_pwm_config (the `for (;;)` loop):
compute tmp = (unsigned long long)rate * period_ns, divide by 10^9 with
do_div; accept the rate and tick count once tmp <= 0xffff; otherwise ask
the clock for a rounded rate at half the current rate, adopt it when it
is strictly lower and retry, and give up (return -EINVAL, here `none`)
when it is not. `round_rate` is the clk_round_rate collaborator, its
result already converted to the driver's `unsigned long`. -/
def rateLoop (round_rate : Nat → Nat) (period_ns rate : Nat) : Option (Nat × Nat) :=
  if rate * period_ns % ULLONG_MOD / 1000000000 ≤ 0xffff then
    some (rate, rate * period_ns % ULLONG_MOD / 1000000000)
  else if h : round_rate (rate / 2) < rate then
    rateLoop round_rate period_ns (round_rate (rate / 2))
  else
    none
termination_by rate

/-- Outcome of jz4740_pwm_config. `ok set_rate period duty ops` is the
successful return 0: `set_rate` is the argument the driver passed to
clk_set_rate (the accepted rate), `period` and `duty` the tick counts
written to the hardware, `ops` the register-access trace.
`rateOutOfRange` is the -EINVAL return from the rate loop. `divByZero`
marks the undefined behaviour of `do_div(tmp, period_ns)` when
period_ns = 0 (the C source has no zero guard). -/
inductive ConfigResult where
  | ok (set_rate period duty : Nat) (ops : List RegOp)
  | rateOutOfRange
  | divByZero
deriving DecidableEq

/-- Whether a ConfigResult is the successful return 0. -/
def ConfigResult.isOk : ConfigResult → Bool
  | .ok _ _ _ _ => true
  | _ => false

/-- The argument passed to clk_set_rate on success (0 otherwise). -/
def ConfigResult.setRateArg : ConfigResult → Nat
  | .ok r _ _ _ => r
  | _ => 0

/-- The period tick count written to the hardware on success (0 otherwise). -/
def ConfigResult.periodTicks : ConfigResult → Nat
  | .ok _ p _ _ => p
  | _ => 0

/-- The duty tick count written to the hardware on success (0 otherwise). -/
def ConfigResult.dutyTicks : ConfigResult → Nat
  | .ok _ _ d _ => d
  | _ => 0

/-- The register-access trace performed on success (empty otherwise). -/
def ConfigResult.opsList : ConfigResult → List RegOp
  | .ok _ _ _ ops => ops
  | _ => []

/-- The register accesses of the reprogramming part of jz4740_pwm_config:
read the global running-status register TER and test the channel's bit
(`is_enabled = tcsr & BIT(pwm->hwpwm)`); if enabled, run the disable
sequence; set the abrupt-shutdown bit, reset the counter to 0, write the
duty register, write the period register; if it was enabled, run the
enable sequence again. -/
def configOps (s : RegState) (hwpwm duty period : Nat) : List RegOp :=
  let is_enabled := (regmap_read s .TER &&& BIT hwpwm) != 0
  .read .TER ::
    ((if is_enabled then jz4740_pwm_disable hwpwm else []) ++
     [.updateBits (.TCSR hwpwm) TCU_TCSR_PWM_SD TCU_TCSR_PWM_SD,
      .write (.TCNT hwpwm) 0,
      .write (.TDHR hwpwm) duty,
      .write (.TDFR hwpwm) period] ++
     (if is_enabled then jz4740_pwm_enable hwpwm else []))

/-- jz4740_pwm_config: run the rate loop starting from the current clock
rate `rate0` (clk_get_rate); on success commit the accepted rate via
clk_set_rate, compute `duty = period - period * duty_ns / period_ns`
(64-bit arithmetic truncated to `unsigned long`), clamp to `period - 1`
(again as `unsigned long`) when `duty >= period`, and perform the
register accesses of `configOps`. -/
def jz4740_pwm_config (round_rate : Nat → Nat) (s : RegState) (hwpwm : Nat)
    (duty_ns period_ns rate0 : Nat) : ConfigResult :=
  match rateLoop round_rate period_ns rate0 with
  | none => .rateOutOfRange
  | some (rate, period) =>
    if period_ns = 0 then .divByZero
    else
      let tmp := period * duty_ns % ULLONG_MOD / period_ns
      let duty := (period + ULLONG_MOD - tmp) % ULLONG_MOD % ULONG_MOD
      let duty := if period ≤ duty then (period + ULONG_MOD - 1) % ULONG_MOD else duty
      .ok rate period duty (configOps s hwpwm duty period)

/-- Outcomes of the collaborators called by jz4740_pwm_request:
the return value of ingenic_tcu_request_channel, the outcome of clk_get
(`Except.error e` when IS_ERR holds, `e` being PTR_ERR), and the return
value of clk_prepare_enable. -/
structure RequestEnv where
  tcu_request_channel : Int
  clk_get : Except Int Unit
  clk_prepare_enable : Int

/-- Resource events of jz4740_pwm_request: acquiring/releasing the TCU
channel lease (ingenic_tcu_request_channel / ingenic_tcu_release_channel),
obtaining/putting the clock handle (clk_get / clk_put), and enabling the
clock (clk_prepare_enable). -/
inductive ResEv where
  | leaseAcq
  | leaseRel
  | clkGet
  | clkPut
  | clkEnable
deriving DecidableEq

/-- jz4740_pwm_request: lease the TCU channel; on success get the clock,
undoing the lease (goto err_free_channel) when that fails; then enable
the clock, undoing the clock handle and then the lease (goto err_clk_put,
falling through err_free_channel) when that fails. Returns the C return
value and the trace of resource events actually performed. -/
def jz4740_pwm_request (env : RequestEnv) : Int × List ResEv :=
  if env.tcu_request_channel ≠ 0 then
    (env.tcu_request_channel, [])
  else
    match env.clk_get with
    | .error e => (e, [.leaseAcq, .leaseRel])
    | .ok _ =>
      if env.clk_prepare_enable ≠ 0 then
        (env.clk_prepare_enable, [.leaseAcq, .clkGet, .clkPut, .leaseRel])
      else
        (0, [.leaseAcq, .clkGet, .clkEnable])

/-- Which resources are held: the channel lease and the clock handle. -/
structure HeldRes where
  leaseHeld : Bool
  clkHeld : Bool
deriving DecidableEq

/-- Effect of one resource event on the held-resources state. -/
def stepRes (h : HeldRes) : ResEv → HeldRes
  | .leaseAcq => { h with leaseHeld := true }
  | .leaseRel => { h with leaseHeld := false }
  | .clkGet => { h with clkHeld := true }
  | .clkPut => { h with clkHeld := false }
  | .clkEnable => h

/-- Resources held after a trace of resource events, starting from none. -/
def heldAfter (evs : List ResEv) : HeldRes :=
  evs.foldl stepRes ⟨false, false⟩

/-- The register file with every register zero (channel disabled). -/
def zeroState : RegState := fun _ => 0

/-- A register file in which channel 0 is running: bit 0 of the global
running-status register TER is set, all else zero. -/
def enState : RegState := fun r => if r = Reg.TER then 1 else 0

/-- Recognises the four register accesses of the reprogramming sequence of
channel `c`: the abrupt-shutdown updateBits on the channel's control
register, and the writes to its counter, duty and period registers. -/
def isProgramOp (c : Nat) : RegOp → Bool
  | .updateBits (.TCSR cc) mask _ => cc == c && mask == TCU_TCSR_PWM_SD
  | .write (.TCNT cc) _ => cc == c
  | .write (.TDHR cc) _ => cc == c
  | .write (.TDFR cc) _ => cc == c
  | _ => false

/-- The value of the initial-level-high bit requested by a polarity. -/
def polBit : PwmPolarity → Bool
  | .normal => false
  | .inversed => true

/-- Every tick count the rate loop accepts is the truncated product for the
accepted rate and lies within the 16-bit counter range. -/
theorem rateLoop_some_le (rr : Nat → Nat) (pns : Nat) :
    ∀ rate r p, rateLoop rr pns rate = some (r, p) →
      p = r * pns % ULLONG_MOD / 1000000000 ∧ p ≤ 0xffff := by
  intro rate
  induction rate using Nat.strong_induction_on with
  | _ rate ih =>
    intro r p h
    rw [rateLoop] at h
    split at h
    · next hle =>
        simp only [Option.some.injEq, Prod.mk.injEq] at h
        obtain ⟨rfl, rfl⟩ := h
        exact ⟨rfl, hle⟩
    · split at h
      · next hlt => exact ih _ hlt r p h
      · exact Option.noConfusion h

/-- The clamped duty computation stays strictly below a positive period. -/
theorem dutyClamp_lt (p d : Nat) (hp : 1 ≤ p) :
    (if p ≤ d then (p + ULONG_MOD - 1) % ULONG_MOD else d) < p := by
  have hU : ULONG_MOD = 4294967296 := by norm_num [ULONG_MOD]
  rw [hU]
  split
  · omega
  · omega

/-- C9: for clock base rate 48,000,000 Hz, period_ns = 1,000,000 and
duty_ns = 500,000, configure accepts the rate 48,000,000 Hz without
halving (it is the rate committed via clk_set_rate) and computes
period_ticks = 48,000 and duty_ticks = 24,000. -/
theorem config_scenario_a :
    (jz4740_pwm_config (fun r => r) zeroState 0 500000 1000000 48000000).isOk = true ∧
    (jz4740_pwm_config (fun r => r) zeroState 0 500000 1000000 48000000).setRateArg
      = 48000000 ∧
    (jz4740_pwm_config (fun r => r) zeroState 0 500000 1000000 48000000).periodTicks
      = 48000 ∧
    (jz4740_pwm_config (fun r => r) zeroState 0 500000 1000000 48000000).dutyTicks
      = 24000 := by
  rw [jz4740_pwm_config, rateLoop]
  norm_num [ULLONG_MOD, ULONG_MOD, ConfigResult.isOk, ConfigResult.setRateArg,
    ConfigResult.periodTicks, ConfigResult.dutyTicks]

/-- C1 counterexample: at clock rate 1,000,000 Hz with period_ns = 1 and
duty_ns = 0, configure succeeds with period_ticks = 0, and the clamp
`duty = period - 1` wraps around the 32-bit unsigned arithmetic, so
duty_ticks < period_ticks fails after this successful call. -/
theorem config_duty_cex :
    (jz4740_pwm_config (fun r => r) zeroState 0 0 1 1000000).isOk = true ∧
    ¬ ((jz4740_pwm_config (fun r => r) zeroState 0 0 1 1000000).dutyTicks <
        (jz4740_pwm_config (fun r => r) zeroState 0 0 1 1000000).periodTicks) := by
  rw [jz4740_pwm_config, rateLoop]
  norm_num [ULLONG_MOD, ULONG_MOD, ConfigResult.isOk,
    ConfigResult.periodTicks, ConfigResult.dutyTicks]

/-- C1 (amended): after every successful call to configure whose computed
period tick count is at least 1, duty_ticks < period_ticks holds: the duty
is period minus the truncated product, clamped to period - 1 when it would
equal or exceed the period. -/
theorem config_duty_lt_period (rr : Nat → Nat) (s : RegState)
    (c dns pns r0 : Nat)
    (hok : (jz4740_pwm_config rr s c dns pns r0).isOk = true)
    (hp : 1 ≤ (jz4740_pwm_config rr s c dns pns r0).periodTicks) :
    (jz4740_pwm_config rr s c dns pns r0).dutyTicks <
      (jz4740_pwm_config rr s c dns pns r0).periodTicks := by
  unfold jz4740_pwm_config at hok hp ⊢
  cases hr : rateLoop rr pns r0 with
  | none =>
      rw [hr] at hok
      simp [ConfigResult.isOk] at hok
  | some rp =>
      obtain ⟨r, p⟩ := rp
      rw [hr] at hok hp
      by_cases h0 : pns = 0
      · simp [h0, ConfigResult.isOk] at hok
      · simp [h0, ConfigResult.dutyTicks, ConfigResult.periodTicks] at hp ⊢
        exact dutyClamp_lt _ _ hp

/-- Witness for the amended C1 at the concrete scenario of C9: the duty
of 24,000 ticks is strictly below the period of 48,000 ticks. -/
theorem config_duty_lt_period_witness :
    (jz4740_pwm_config (fun r => r) zeroState 0 500000 1000000 48000000).dutyTicks <
      (jz4740_pwm_config (fun r => r) zeroState 0 500000 1000000 48000000).periodTicks :=
  config_duty_lt_period (fun r => r) zeroState 0 500000 1000000 48000000
    (by rw [jz4740_pwm_config, rateLoop]
        norm_num [ULLONG_MOD, ULONG_MOD, ConfigResult.isOk])
    (by rw [jz4740_pwm_config, rateLoop]
        norm_num [ULLONG_MOD, ULONG_MOD, ConfigResult.periodTicks])

/-- C2: for every period_ns > 0 and every clock base rate, the rate search
either accepts a tick count at most 0xFFFF or configure fails with
RateOutOfRange; the tick count written to the period register on success
is the accepted one and never exceeds 0xFFFF. -/
theorem config_period_within_range (rr : Nat → Nat) (s : RegState)
    (c dns pns r0 r p : Nat) (hpns : 0 < pns) :
    (rateLoop rr pns r0 = some (r, p) → p ≤ 0xffff) ∧
    ((jz4740_pwm_config rr s c dns pns r0).isOk = true →
      (jz4740_pwm_config rr s c dns pns r0).periodTicks ≤ 0xffff ∧
      RegOp.write (Reg.TDFR c) ((jz4740_pwm_config rr s c dns pns r0).periodTicks)
        ∈ (jz4740_pwm_config rr s c dns pns r0).opsList) ∧
    ((jz4740_pwm_config rr s c dns pns r0).isOk = false →
      jz4740_pwm_config rr s c dns pns r0 = ConfigResult.rateOutOfRange) := by
  refine ⟨fun h => (rateLoop_some_le rr pns r0 r p h).2, fun hok => ?_, fun hbad => ?_⟩
  · unfold jz4740_pwm_config at hok ⊢
    cases hr : rateLoop rr pns r0 with
    | none =>
        rw [hr] at hok
        simp [ConfigResult.isOk] at hok
    | some rp =>
        obtain ⟨a, b⟩ := rp
        have h0 : ¬ pns = 0 := by omega
        refine ⟨?_, ?_⟩
        · simp [h0, ConfigResult.periodTicks]
          exact (rateLoop_some_le rr pns r0 a b hr).2
        · simp [h0, ConfigResult.periodTicks, ConfigResult.opsList, configOps]
  · unfold jz4740_pwm_config at hbad ⊢
    cases hr : rateLoop rr pns r0 with
    | none => simp
    | some rp =>
        obtain ⟨a, b⟩ := rp
        rw [hr] at hbad
        have h0 : ¬ pns = 0 := by omega
        simp [h0, ConfigResult.isOk] at hbad

/-- Witness for C2 at the concrete scenario of C9. -/
theorem config_period_within_range_witness :
    (rateLoop (fun x => x) 1000000 48000000 = some (48000000, 48000) →
      48000 ≤ 0xffff) ∧
    ((jz4740_pwm_config (fun x => x) zeroState 0 500000 1000000 48000000).isOk = true →
      (jz4740_pwm_config (fun x => x) zeroState 0 500000 1000000 48000000).periodTicks
        ≤ 0xffff ∧
      RegOp.write (Reg.TDFR 0)
          ((jz4740_pwm_config (fun x => x) zeroState 0 500000 1000000 48000000).periodTicks)
        ∈ (jz4740_pwm_config (fun x => x) zeroState 0 500000 1000000 48000000).opsList) ∧
    ((jz4740_pwm_config (fun x => x) zeroState 0 500000 1000000 48000000).isOk = false →
      jz4740_pwm_config (fun x => x) zeroState 0 500000 1000000 48000000
        = ConfigResult.rateOutOfRange) :=
  config_period_within_range (fun x => x) zeroState 0 500000 1000000 48000000
    48000000 48000 (by norm_num)

/-- C10: every division configure performs has a nonzero divisor when
period_ns > 0: with the precondition the undefined division-by-zero
outcome is unreachable, and with period_ns = 0 the unguarded
do_div(tmp, period_ns) is always reached, so period_ns ≠ 0 is a necessary
precondition for configure to be defined. -/
theorem config_no_div_by_zero (rr : Nat → Nat) (s : RegState)
    (c dns pns r0 : Nat) (hpns : 0 < pns) :
    jz4740_pwm_config rr s c dns pns r0 ≠ ConfigResult.divByZero ∧
    jz4740_pwm_config rr s c dns 0 r0 = ConfigResult.divByZero := by
  constructor
  · unfold jz4740_pwm_config
    cases hr : rateLoop rr pns r0 with
    | none => simp
    | some rp =>
        obtain ⟨a, b⟩ := rp
        have h0 : ¬ pns = 0 := by omega
        simp [h0]
  · unfold jz4740_pwm_config
    rw [rateLoop]
    norm_num [ULLONG_MOD]

/-- Witness for C10: period_ns = 1,000,000 never reaches the division by
zero; period_ns = 0 always does. -/
theorem config_no_div_by_zero_witness :
    jz4740_pwm_config (fun x => x) zeroState 0 500000 1000000 48000000
      ≠ ConfigResult.divByZero ∧
    jz4740_pwm_config (fun x => x) zeroState 0 500000 0 48000000
      = ConfigResult.divByZero :=
  config_no_div_by_zero (fun x => x) zeroState 0 500000 1000000 48000000 (by norm_num)

/-- C4: whenever the computed tick count exceeds 0xFFFF, the rate loop
adopts the clock's rounded rate at half the current rate exactly when it
is strictly lower than the current rate (and retries from it), fails with
RateOutOfRange otherwise; and on success the rate committed to the clock
via clk_set_rate is the rate the loop accepted, paired with its tick
count. -/
theorem rateLoop_halving (rr : Nat → Nat) (s : RegState)
    (c dns pns rate r0 : Nat)
    (hbig : ¬ rate * pns % ULLONG_MOD / 1000000000 ≤ 0xffff) :
    (rr (rate / 2) < rate →
        rateLoop rr pns rate = rateLoop rr pns (rr (rate / 2))) ∧
    (¬ rr (rate / 2) < rate → rateLoop rr pns rate = none) ∧
    ((jz4740_pwm_config rr s c dns pns r0).isOk = true →
        rateLoop rr pns r0 =
          some ((jz4740_pwm_config rr s c dns pns r0).setRateArg,
                (jz4740_pwm_config rr s c dns pns r0).periodTicks)) := by
  refine ⟨fun hlt => ?_, fun hge => ?_, fun hok => ?_⟩
  · rw [rateLoop, if_neg hbig, dif_pos hlt]
  · rw [rateLoop, if_neg hbig, dif_neg hge]
  · unfold jz4740_pwm_config at hok ⊢
    cases hr : rateLoop rr pns r0 with
    | none =>
        rw [hr] at hok
        simp [ConfigResult.isOk] at hok
    | some rp =>
        obtain ⟨a, b⟩ := rp
        rw [hr] at hok
        by_cases h0 : pns = 0
        · simp [h0, ConfigResult.isOk] at hok
        · simp [h0, ConfigResult.setRateArg, ConfigResult.periodTicks]

/-- Witness for C4: at rate 10^12 Hz and period_ns = 10^6 the tick count
overflows the range; halving applies since the identity round-rate halves
strictly; and the scenario of C9 exhibits the committed rate. -/
theorem rateLoop_halving_witness :
    ((fun x => x) (1000000000000 / 2) < 1000000000000 →
        rateLoop (fun x => x) 1000000 1000000000000 =
          rateLoop (fun x => x) 1000000 ((fun x => x) (1000000000000 / 2))) ∧
    (¬ (fun x => x) (1000000000000 / 2) < 1000000000000 →
        rateLoop (fun x => x) 1000000 1000000000000 = none) ∧
    ((jz4740_pwm_config (fun x => x) zeroState 0 500000 1000000 48000000).isOk = true →
        rateLoop (fun x => x) 1000000 48000000 =
          some ((jz4740_pwm_config (fun x => x) zeroState 0 500000 1000000 48000000).setRateArg,
                (jz4740_pwm_config (fun x => x) zeroState 0 500000 1000000 48000000).periodTicks)) :=
  rateLoop_halving (fun x => x) zeroState 0 500000 1000000 1000000000000 48000000
    (by norm_num [ULLONG_MOD])

/-- Bit m of the single-bit mask BIT n is set exactly for m = n. -/
theorem testBit_BIT (n m : Nat) : (BIT n).testBit m = decide (n = m) := by
  simp [BIT, Nat.testBit_two_pow]

/-- The C truth test `x & BIT(c)` agrees with testing bit c. -/
theorem and_bit_ne_zero (x c : Nat) : ((x &&& BIT c) != 0) = x.testBit c := by
  have h2 : (2 : Nat) ^ c ≠ 0 := Nat.pos_iff_ne_zero.mp (Nat.two_pow_pos c)
  cases h : x.testBit c <;> simp [BIT, Nat.and_two_pow, h, h2]

/-- The reprogramming trace leaves the channel's running-status bit as it
found it: a running channel is stopped and restarted, a stopped one is
never started. -/
theorem configOps_preserves_TER (s : RegState) (c duty period : Nat) :
    (applyOps s (configOps s c duty period) Reg.TER).testBit c
      = (s Reg.TER).testBit c := by
  simp only [configOps, regmap_read, and_bit_ne_zero]
  cases h : (s Reg.TER).testBit c <;>
    simp [h, applyOps, applyOp, regmap_write, regmap_update_bits,
      jz4740_pwm_disable, jz4740_pwm_enable, Function.update_apply,
      Nat.testBit_lor, Nat.testBit_ldiff, BIT, Nat.testBit_two_pow]

/-- C3: configure leaves the channel's enabled state unchanged: the bit of
the live global running-status register TER that was read to decide
is_enabled has the same value after the whole register trace of a
successful configure has been applied. -/
theorem config_preserves_enabled (rr : Nat → Nat) (s : RegState)
    (c dns pns r0 : Nat)
    (hok : (jz4740_pwm_config rr s c dns pns r0).isOk = true) :
    (applyOps s ((jz4740_pwm_config rr s c dns pns r0).opsList) Reg.TER).testBit c
      = (s Reg.TER).testBit c := by
  unfold jz4740_pwm_config at hok ⊢
  cases hr : rateLoop rr pns r0 with
  | none =>
      rw [hr] at hok
      simp [ConfigResult.isOk] at hok
  | some rp =>
      obtain ⟨a, b⟩ := rp
      rw [hr] at hok
      by_cases h0 : pns = 0
      · simp [h0, ConfigResult.isOk] at hok
      · simp [h0, ConfigResult.opsList]
        exact configOps_preserves_TER s c _ b

/-- Witness for C3 on a register file with channel 0 running. -/
theorem config_preserves_enabled_witness :
    (applyOps enState
        ((jz4740_pwm_config (fun x => x) enState 0 500000 1000000 48000000).opsList)
        Reg.TER).testBit 0
      = (enState Reg.TER).testBit 0 :=
  config_preserves_enabled (fun x => x) enState 0 500000 1000000 48000000
    (by rw [jz4740_pwm_config, rateLoop]
        norm_num [ULLONG_MOD, ConfigResult.isOk])

/-- Filtering the reprogramming trace to the programming accesses of the
channel yields exactly: abrupt-shutdown updateBits, counter reset, duty
write, period write — in this order. -/
theorem configOps_filter (s : RegState) (c duty period : Nat) :
    (configOps s c duty period).filter (isProgramOp c) =
      [RegOp.updateBits (Reg.TCSR c) TCU_TCSR_PWM_SD TCU_TCSR_PWM_SD,
       RegOp.write (Reg.TCNT c) 0,
       RegOp.write (Reg.TDHR c) duty,
       RegOp.write (Reg.TDFR c) period] := by
  simp only [configOps, regmap_read, and_bit_ne_zero]
  cases h : (s Reg.TER).testBit c <;>
    simp [h, jz4740_pwm_disable, jz4740_pwm_enable, isProgramOp,
      TCU_TCSR_PWM_EN, TCU_TCSR_PWM_SD, BIT, List.filter]

/-- C6: during reprogramming, a successful configure performs the channel
register writes in exactly this order: set the abrupt-shutdown bit, reset
the live counter to zero, write the duty register, then write the period
register — the duty register is always written before the period
register. -/
theorem config_write_order (rr : Nat → Nat) (s : RegState)
    (c dns pns r0 : Nat)
    (hok : (jz4740_pwm_config rr s c dns pns r0).isOk = true) :
    ((jz4740_pwm_config rr s c dns pns r0).opsList).filter (isProgramOp c) =
      [RegOp.updateBits (Reg.TCSR c) TCU_TCSR_PWM_SD TCU_TCSR_PWM_SD,
       RegOp.write (Reg.TCNT c) 0,
       RegOp.write (Reg.TDHR c) ((jz4740_pwm_config rr s c dns pns r0).dutyTicks),
       RegOp.write (Reg.TDFR c) ((jz4740_pwm_config rr s c dns pns r0).periodTicks)] := by
  unfold jz4740_pwm_config at hok ⊢
  cases hr : rateLoop rr pns r0 with
  | none =>
      rw [hr] at hok
      simp [ConfigResult.isOk] at hok
  | some rp =>
      obtain ⟨a, b⟩ := rp
      rw [hr] at hok
      by_cases h0 : pns = 0
      · simp [h0, ConfigResult.isOk] at hok
      · simp [h0, ConfigResult.opsList, ConfigResult.dutyTicks,
          ConfigResult.periodTicks, configOps_filter]

/-- Witness for C6 at the concrete scenario of C9. -/
theorem config_write_order_witness :
    ((jz4740_pwm_config (fun x => x) zeroState 0 500000 1000000 48000000).opsList).filter
        (isProgramOp 0) =
      [RegOp.updateBits (Reg.TCSR 0) TCU_TCSR_PWM_SD TCU_TCSR_PWM_SD,
       RegOp.write (Reg.TCNT 0) 0,
       RegOp.write (Reg.TDHR 0)
         ((jz4740_pwm_config (fun x => x) zeroState 0 500000 1000000 48000000).dutyTicks),
       RegOp.write (Reg.TDFR 0)
         ((jz4740_pwm_config (fun x => x) zeroState 0 500000 1000000 48000000).periodTicks)] :=
  config_write_order (fun x => x) zeroState 0 500000 1000000 48000000
    (by rw [jz4740_pwm_config, rateLoop]
        norm_num [ULLONG_MOD, ConfigResult.isOk])

/-- C7: enable sets the channel's output-enable bit in its control
register before writing the channel's start bit to the global
counter-start register, and disable clears the output-enable bit before
writing the channel's stop bit to the global counter-stop register: the
traces are exactly these two accesses in this order, and already after
the first access the output-enable bit has its new value while the
global running-status register is untouched. -/
theorem enable_disable_order (s : RegState) (c : Nat) :
    jz4740_pwm_enable c =
      [RegOp.updateBits (Reg.TCSR c) TCU_TCSR_PWM_EN TCU_TCSR_PWM_EN,
       RegOp.write Reg.TESR (BIT c)] ∧
    jz4740_pwm_disable c =
      [RegOp.updateBits (Reg.TCSR c) TCU_TCSR_PWM_EN 0,
       RegOp.write Reg.TECR (BIT c)] ∧
    ((applyOps s (List.take 1 (jz4740_pwm_enable c)) (Reg.TCSR c)).testBit 7 = true ∧
      applyOps s (List.take 1 (jz4740_pwm_enable c)) Reg.TER = s Reg.TER) ∧
    ((applyOps s (jz4740_pwm_enable c) Reg.TER).testBit c = true ∧
      (applyOps s (jz4740_pwm_enable c) (Reg.TCSR c)).testBit 7 = true) ∧
    ((applyOps s (List.take 1 (jz4740_pwm_disable c)) (Reg.TCSR c)).testBit 7 = false ∧
      applyOps s (List.take 1 (jz4740_pwm_disable c)) Reg.TER = s Reg.TER) ∧
    ((applyOps s (jz4740_pwm_disable c) Reg.TER).testBit c = false ∧
      (applyOps s (jz4740_pwm_disable c) (Reg.TCSR c)).testBit 7 = false) := by
  refine ⟨rfl, rfl, ?_, ?_, ?_, ?_⟩ <;>
    simp [jz4740_pwm_enable, jz4740_pwm_disable, applyOps, applyOp,
      regmap_write, regmap_update_bits, Function.update_apply,
      Nat.testBit_lor, Nat.testBit_ldiff, Nat.testBit_land,
      TCU_TCSR_PWM_EN, testBit_BIT, Nat.zero_testBit]

/-- C8: set_polarity changes exactly the initial-level-high bit (bit 8 of
the channel's control register): that bit becomes 0 for normal and 1 for
inversed polarity, and every other bit of every register keeps its
previous value. -/
theorem set_polarity_exact (s : RegState) (c : Nat) (pol : PwmPolarity)
    (r : Reg) (i : Nat) :
    (applyOps s (jz4740_pwm_set_polarity c pol) r).testBit i =
      if r = Reg.TCSR c ∧ i = 8 then polBit pol
      else (s r).testBit i := by
  by_cases hr : r = Reg.TCSR c
  · subst hr
    by_cases hi : i = 8
    · subst hi
      cases pol <;>
        simp [jz4740_pwm_set_polarity, applyOps, applyOp, regmap_update_bits,
          Function.update_apply, polBit, TCU_TCSR_PWM_INITL_HIGH,
          Nat.testBit_lor, Nat.testBit_ldiff, Nat.testBit_land, testBit_BIT,
          Nat.zero_testBit]
    · cases pol <;>
        simp [jz4740_pwm_set_polarity, applyOps, applyOp, regmap_update_bits,
          Function.update_apply, polBit, TCU_TCSR_PWM_INITL_HIGH,
          Nat.testBit_lor, Nat.testBit_ldiff, Nat.testBit_land, testBit_BIT,
          Nat.zero_testBit, hi, Ne.symm hi]
  · cases pol <;>
      simp [jz4740_pwm_set_polarity, applyOps, applyOp, regmap_update_bits,
        Function.update_apply, hr]

/-- C5: on every error return of request no partial resource remains
held, and the cleanup traces release in reverse order: nothing was
acquired, or the lease was acquired and released, or lease and clock were
acquired and the clock handle was put before the lease was released. -/
theorem request_no_partial_resources (env : RequestEnv)
    (h : (jz4740_pwm_request env).1 ≠ 0) :
    heldAfter (jz4740_pwm_request env).2 = ⟨false, false⟩ ∧
    ((jz4740_pwm_request env).2 = [] ∨
     (jz4740_pwm_request env).2 = [ResEv.leaseAcq, ResEv.leaseRel] ∨
     (jz4740_pwm_request env).2 =
       [ResEv.leaseAcq, ResEv.clkGet, ResEv.clkPut, ResEv.leaseRel]) := by
  by_cases h1 : env.tcu_request_channel = 0
  · cases hg : env.clk_get with
    | error e =>
        simp [jz4740_pwm_request, h1, hg, heldAfter, stepRes, List.foldl]
    | ok u =>
        by_cases h2 : env.clk_prepare_enable = 0
        · simp [jz4740_pwm_request, h1, hg, h2] at h
        · simp [jz4740_pwm_request, h1, hg, h2, heldAfter, stepRes, List.foldl]
  · simp [jz4740_pwm_request, h1, heldAfter, List.foldl]

/-- Witness for C5: the lease is acquired, the clock obtained, and its
enabling fails with -EIO; everything is released, clock first. -/
theorem request_no_partial_resources_witness :
    heldAfter (jz4740_pwm_request ⟨0, Except.ok (), -5⟩).2 = ⟨false, false⟩ ∧
    ((jz4740_pwm_request ⟨0, Except.ok (), -5⟩).2 = [] ∨
     (jz4740_pwm_request ⟨0, Except.ok (), -5⟩).2 = [ResEv.leaseAcq, ResEv.leaseRel] ∨
     (jz4740_pwm_request ⟨0, Except.ok (), -5⟩).2 =
       [ResEv.leaseAcq, ResEv.clkGet, ResEv.clkPut, ResEv.leaseRel]) :=
  request_no_partial_resources ⟨0, Except.ok (), -5⟩ (by decide)
